import Mathlib

/-!
Verification development for the go-html-validate repository.

Strings from the Go source are embedded as `List Char`.  The regular
expressions of the preprocessor (RE2, leftmost-first with non-greedy
quantifiers) are embedded as deterministic scanners: every quantifier in the
patterns involved is forced (greedy runs over character classes disjoint from
the literal that follows, optional dashes, and non-greedy gaps that stop at
the first position where the delimiter matches), so each pattern has exactly
one possible match at a given start position, and `ReplaceAll` is a left-to-
right scan replacing non-overlapping leftmost matches.
-/

namespace GoHtmlValidate

/-- Byte strings of the Go source, embedded as lists of characters. -/
abbrev Str := List Char

/-- RE2 character class backslash-s: tab, newline, form feed, carriage return, space. -/
def reSpace (c : Char) : Bool :=
  c = ' ' || c = '\t' || c = '\n' || c = '\x0c' || c = '\r'

/-- Go unicode.IsSpace (the White_Space property), used by strings.Fields,
strings.TrimSpace and bytes.TrimSpace. -/
def goIsSpace (c : Char) : Bool :=
  c = '\t' || c = '\n' || c = '\x0b' || c = '\x0c' || c = '\r' || c = ' ' ||
  c.toNat = 0x85 || c.toNat = 0xa0 || c.toNat = 0x1680 ||
  (0x2000 ≤ c.toNat && c.toNat ≤ 0x200a) ||
  c.toNat = 0x2028 || c.toNat = 0x2029 || c.toNat = 0x202f ||
  c.toNat = 0x205f || c.toNat = 0x3000

/-- ASCII lower-casing of one character.  (Go strings.ToLower is Unicode;
all inputs in this development are ASCII, where the two agree.) -/
def lowerChar (c : Char) : Char :=
  if 'A' ≤ c && c ≤ 'Z' then Char.ofNat (c.toNat + 32) else c

/-- Model of Go strings.ToLower on ASCII text. -/
def lowerStr (s : Str) : Str := s.map lowerChar

/-- Model of Go strings.HasPrefix: does `s` start with `pat`. -/
def startsWith : Str → Str → Bool
  | [], _ => true
  | _ :: _, [] => false
  | p :: ps, c :: cs => p = c && startsWith ps cs

/-- Model of Go strings.HasSuffix. -/
def endsWith (pat s : Str) : Bool := startsWith pat.reverse s.reverse

/-- Model of Go strings.Contains: does `pat` occur as a contiguous substring. -/
def containsSub (pat : Str) : Str → Bool
  | [] => startsWith pat []
  | c :: rest => startsWith pat (c :: rest) || containsSub pat rest

/-- Model of Go strings.TrimSpace / bytes.TrimSpace. -/
def trimSpace (s : Str) : Str :=
  ((s.dropWhile goIsSpace).reverse.dropWhile goIsSpace).reverse

/-- Model of Go strings.Fields: split around maximal runs of white space. -/
def fieldsAux : Str → Str → List Str
  | [], cur => if cur = [] then [] else [cur.reverse]
  | c :: rest, cur =>
    if goIsSpace c then
      if cur = [] then fieldsAux rest [] else cur.reverse :: fieldsAux rest []
    else fieldsAux rest (c :: cur)

/-- Model of Go strings.Fields. -/
def fields (s : Str) : List Str := fieldsAux s []

/-- Model of Go strings.Split with a one-character separator. -/
def splitChar (sep : Char) : Str → List Str
  | [] => [[]]
  | c :: rest =>
    if c = sep then [] :: splitChar sep rest
    else
      match splitChar sep rest with
      | [] => [[c]]
      | h :: t => (c :: h) :: t

/-- Break a string at the first occurrence of `sep`: models Go strings.Index
combined with the two slices around the found position, and strings.SplitN
with limit 2.  Returns none when `sep` does not occur (Index = -1). -/
def breakAt (sep : Char) : Str → Option (Str × Str)
  | [] => none
  | c :: rest =>
    if c = sep then some ([], rest)
    else (breakAt sep rest).map (fun p => (c :: p.1, p.2))

/-- ASCII decimal digit, the RE2 class backslash-d. -/
def isDigitChar (c : Char) : Bool := '0' ≤ c && c ≤ '9'

/-- ASCII letter, the class [a-zA-Z]. -/
def isAlphaChar (c : Char) : Bool :=
  ('a' ≤ c && c ≤ 'z') || ('A' ≤ c && c ≤ 'Z')

/-- ASCII letter or digit, the class [a-zA-Z0-9]. -/
def isAlnumChar (c : Char) : Bool := isAlphaChar c || isDigitChar c

/-- Number of newline characters: the line count of a byte string minus one. -/
def countNL (s : Str) : Nat := s.count '\n'

/-!
Directive preprocessor (source file of package parser, Preprocessor.Process).

The three patterns are
  templatePattern  = open open [every char]*? close close
  ifElseEndPattern = (?s) openif (.*?) elsemarker .*? endmarker
  ifEndPattern     = (?s) openif (.*?) endmarker
where openif is open open dash? space* "if" space nonclose* close close,
elsemarker is open open dash? space* "else" space* dash? close close,
endmarker the same with "end", written with literal braces in the Go source.
Every sub-pattern is deterministic at a fixed start position, as each greedy
run ranges over characters disjoint from the literal that must follow it, so
the scanners below realize the RE2 leftmost-first semantics exactly.
-/

/-- Consume the optional dash of the patterns (regex dash?). -/
def eatDash : Str → Str
  | '-' :: rest => rest
  | s => s

/-- Consume the maximal run matched by the RE2 class backslash-s star. -/
def skipReSpace (s : Str) : Str := s.dropWhile reSpace

/-- Consume the if-condition: the maximal run of non-close-brace characters,
then require the two closing braces, returning what follows them. -/
def eatCondClose (s : Str) : Option Str :=
  match s.dropWhile (fun c => c ≠ '}') with
  | '}' :: '}' :: r => some r
  | _ => none

/-- Match the opening delimiter of an if-block at the start of `s`
(pattern: open open dash? space* "if" space nonclose* close close);
returns the remainder after the two closing braces. -/
def matchIfHead : Str → Option Str
  | '{' :: '{' :: r =>
    match skipReSpace (eatDash r) with
    | 'i' :: 'f' :: c :: r2 => if reSpace c then eatCondClose r2 else none
    | _ => none
  | _ => none

/-- Match a keyword marker at the start of `s`
(pattern: open open dash? space* WORD space* dash? close close);
returns the remainder after the marker. -/
def matchMarker (word : Str) : Str → Option Str
  | '{' :: '{' :: r =>
    let r := skipReSpace (eatDash r)
    if startsWith word r then
      match eatDash (skipReSpace (r.drop word.length)) with
      | '}' :: '}' :: rest => some rest
      | _ => none
    else none
  | _ => none

/-- The word of the else marker. -/
def elseWord : Str := ['e', 'l', 's', 'e']

/-- The word of the end marker. -/
def endWord : Str := ['e', 'n', 'd']

/-- Find the leftmost position where `matchMarker word` succeeds: the
realization of the non-greedy gap before a marker.  Returns the text before
the marker and the remainder after it. -/
def findMarker (word : Str) : Str → Option (Str × Str)
  | [] => none
  | c :: rest =>
    match matchMarker word (c :: rest) with
    | some r1 => some ([], r1)
    | none =>
      match findMarker word rest with
      | some (cap, r1) => some (c :: cap, r1)
      | none => none

/-- Match ifElseEndPattern at the start of `s`.  Returns the captured
if-branch (group 1, the ReplaceAll replacement) and the remainder after the
end marker. -/
def tryIfElseMatch (s : Str) : Option (Str × Str) :=
  match matchIfHead s with
  | none => none
  | some r0 =>
    match findMarker elseWord r0 with
    | none => none
    | some (cap, r1) =>
      match findMarker endWord r1 with
      | none => none
      | some (_, r2) => some (cap, r2)

/-- Match ifEndPattern at the start of `s`: captured content and remainder. -/
def tryIfEndMatch (s : Str) : Option (Str × Str) :=
  match matchIfHead s with
  | none => none
  | some r0 =>
    match findMarker endWord r0 with
    | none => none
    | some (cap, r2) => some (cap, r2)

/-- Find the first two-close-brace delimiter: the non-greedy body of
templatePattern.  Returns the text before it and the remainder after it. -/
def findClose : Str → Option (Str × Str)
  | [] => none
  | '}' :: '}' :: rest => some ([], rest)
  | c :: rest =>
    match findClose rest with
    | some (inn, r) => some (c :: inn, r)
    | none => none

/-- Model of the method replaceTemplate of Preprocessor: choose the
replacement for one matched template expression, given the text between the
braces (the Go code slices off the two delimiters before trimming). -/
def replaceTemplate (inner : Str) : Str :=
  let content := trimSpace inner
  if startsWith (("/*").toList) content then []
  else if startsWith (("if ").toList) content || startsWith (("if(").toList) content ||
      content = (("else").toList) || startsWith (("else if").toList) content then []
  else if startsWith (("end").toList) content then []
  else if startsWith (("range ").toList) content then []
  else if startsWith (("template ").toList) content || startsWith (("block ").toList) content then []
  else if startsWith (("define ").toList) content then []
  else if startsWith (("with ").toList) content then []
  else if startsWith (("-").toList) content then []
  else (("TMPL").toList)

/-- Match templatePattern at the start of `s` and apply replaceTemplate:
the per-match step of ReplaceAllFunc. -/
def tryTemplateMatch : Str → Option (Str × Str)
  | '{' :: '{' :: r =>
    match findClose r with
    | some (inner, rest) => some (replaceTemplate inner, rest)
    | none => none
  | _ => none

/-- Left-to-right scan replacing non-overlapping leftmost matches: the
semantics of Regexp.ReplaceAll / ReplaceAllFunc.  `tryMatch` returns the
emitted replacement and the remainder after the match; the fuel (instantiated
with the input length, an upper bound on the number of steps) makes the
recursion structural. -/
def scanReplace (tryMatch : Str → Option (Str × Str)) : Nat → Str → Str
  | 0, s => s
  | _ + 1, [] => []
  | fuel + 1, c :: rest =>
    match tryMatch (c :: rest) with
    | some (out, r2) => out ++ scanReplace tryMatch fuel r2
    | none => c :: scanReplace tryMatch fuel rest

/-- Model of ifElseEndPattern.ReplaceAll(s, group 1). -/
def ifElseEndReplaceAll (s : Str) : Str := scanReplace tryIfElseMatch s.length s

/-- Model of ifEndPattern.ReplaceAll(s, group 1). -/
def ifEndReplaceAll (s : Str) : Str := scanReplace tryIfEndMatch s.length s

/-- Model of templatePattern.ReplaceAllFunc(s, replaceTemplate). -/
def templateReplaceAll (s : Str) : Str := scanReplace tryTemplateMatch s.length s

/-- Model of the method Process of Preprocessor: the three substitution
passes in source order.  The returned SourceMap carries no information used
by any rule (OriginalPosition is the identity), so only the processed bytes
are modelled. -/
def Process (input : Str) : Str :=
  templateReplaceAll (ifEndReplaceAll (ifElseEndReplaceAll input))

/-! Decomposition lemmas: every successful match splits its input into the
consumed span and the remainder, so replacements can only drop characters. -/

theorem eatDash_decomp (s : Str) : ∃ pre, s = pre ++ eatDash s := by
  unfold eatDash
  split
  · exact ⟨['-'], rfl⟩
  · exact ⟨[], rfl⟩

theorem skipReSpace_decomp (s : Str) : ∃ pre, s = pre ++ skipReSpace s :=
  ⟨s.takeWhile reSpace, (List.takeWhile_append_dropWhile _ _).symm⟩

theorem eatCondClose_decomp {s r : Str} (h : eatCondClose s = some r) :
    ∃ pre, s = pre ++ r := by
  unfold eatCondClose at h
  split at h
  case _ r' heq =>
    obtain rfl : r' = r := by injection h
    refine ⟨s.takeWhile (fun c => c ≠ '}') ++ ['}', '}'], ?_⟩
    have hsplit : s = s.takeWhile (fun c => c ≠ '}') ++ s.dropWhile (fun c => c ≠ '}') :=
      (List.takeWhile_append_dropWhile _ _).symm
    rw [heq] at hsplit
    simpa using hsplit
  case _ => exact absurd h (by simp)

theorem matchIfHead_decomp {s r : Str} (h : matchIfHead s = some r) :
    ∃ pre, s = pre ++ r := by
  unfold matchIfHead at h
  split at h
  case _ r0 =>
    split at h
    case _ c r2 heq =>
      split at h
      case _ =>
        obtain ⟨p2, hp2⟩ := eatCondClose_decomp h
        obtain ⟨p1, hp1⟩ := skipReSpace_decomp (eatDash r0)
        obtain ⟨p0, hp0⟩ := eatDash_decomp r0
        have e1 : skipReSpace (eatDash r0) = 'i' :: 'f' :: c :: (p2 ++ r) := by
          rw [heq, hp2]
        have e2 : eatDash r0 = p1 ++ ('i' :: 'f' :: c :: (p2 ++ r)) := hp1.trans (by rw [e1])
        have e3 : r0 = p0 ++ (p1 ++ ('i' :: 'f' :: c :: (p2 ++ r))) := hp0.trans (by rw [e2])
        exact ⟨'{' :: '{' :: (p0 ++ p1 ++ ('i' :: 'f' :: c :: p2)), by simp [e3]⟩
      case _ => exact absurd h (by simp)
    case _ => exact absurd h (by simp)
  case _ => exact absurd h (by simp)

theorem matchMarker_decomp {w s r : Str} (h : matchMarker w s = some r) :
    ∃ pre, s = pre ++ r := by
  unfold matchMarker at h
  split at h
  case _ r0 =>
    simp only at h
    split at h
    case isTrue hw =>
      split at h
      case _ rest heq =>
        obtain rfl : rest = r := by injection h
        obtain ⟨p0, hp0⟩ := eatDash_decomp r0
        obtain ⟨p1, hp1⟩ := skipReSpace_decomp (eatDash r0)
        obtain ⟨t, ht⟩ : ∃ t, skipReSpace (eatDash r0) =
            t ++ (skipReSpace (eatDash r0)).drop w.length :=
          ⟨_, (List.take_append_drop _ _).symm⟩
        obtain ⟨p2, hp2⟩ := skipReSpace_decomp ((skipReSpace (eatDash r0)).drop w.length)
        obtain ⟨p3, hp3⟩ := eatDash_decomp (skipReSpace ((skipReSpace (eatDash r0)).drop w.length))
        have e5 : r0 = p0 ++ (p1 ++ (t ++ (p2 ++ (p3 ++ ('}' :: '}' :: rest))))) := by
          rw [hp0, hp1, ht, hp2, hp3, heq]
        exact ⟨'{' :: '{' :: (p0 ++ p1 ++ t ++ p2 ++ p3 ++ ['}', '}']), by simp [e5]⟩
      case _ => exact absurd h (by simp)
    case isFalse => exact absurd h (by simp)
  case _ => exact absurd h (by simp)

theorem findMarker_decomp {w s cap r1 : Str} (h : findMarker w s = some (cap, r1)) :
    ∃ mid, s = cap ++ mid ++ r1 := by
  induction s generalizing cap with
  | nil => exact absurd h (by simp [findMarker])
  | cons c rest ih =>
    unfold findMarker at h
    split at h
    case _ r heq =>
      simp only [Option.some.injEq, Prod.mk.injEq] at h
      obtain ⟨rfl, rfl⟩ := h
      obtain ⟨pre, hpre⟩ := matchMarker_decomp heq
      exact ⟨pre, by simpa using hpre⟩
    case _ =>
      split at h
      case _ cap' r1' heq' =>
        simp only [Option.some.injEq, Prod.mk.injEq] at h
        obtain ⟨rfl, rfl⟩ := h
        obtain ⟨mid, hmid⟩ := ih heq'
        exact ⟨mid, by simp [hmid]⟩
      case _ => exact absurd h (by simp)

theorem findClose_decomp {s inn r : Str} (h : findClose s = some (inn, r)) :
    ∃ mid, s = inn ++ mid ++ r := by
  induction s generalizing inn with
  | nil => exact absurd h (by simp [findClose])
  | cons c rest ih =>
    unfold findClose at h
    split at h
    · exact absurd h (by simp)
    · rename_i rest' heq
      simp only [Option.some.injEq, Prod.mk.injEq] at h
      obtain ⟨rfl, rfl⟩ := h
      exact ⟨['}', '}'], by simp [heq]⟩
    · rename_i c' rest' hnot heq
      obtain ⟨rfl, rfl⟩ : c = c' ∧ rest = rest' := by simpa using heq
      split at h
      · rename_i inn' r' heq'
        simp only [Option.some.injEq, Prod.mk.injEq] at h
        obtain ⟨rfl, rfl⟩ := h
        obtain ⟨mid, hmid⟩ := ih heq'
        exact ⟨mid, by simp [hmid]⟩
      · exact absurd h (by simp)

/-! Newline conservation: every replacement emits at most the newlines of the
span it consumes, so a Process pass never increases the newline count. -/

theorem countNL_append (a b : Str) : countNL (a ++ b) = countNL a + countNL b :=
  List.count_append _ _ _

theorem replaceTemplate_countNL (inner : Str) : countNL (replaceTemplate inner) = 0 := by
  simp only [replaceTemplate]
  repeat' split
  all_goals decide

theorem tryIfElseMatch_count {s out r2 : Str} (h : tryIfElseMatch s = some (out, r2)) :
    countNL out + countNL r2 ≤ countNL s := by
  unfold tryIfElseMatch at h
  split at h
  case _ => exact absurd h (by simp)
  case _ r0 heq0 =>
    split at h
    case _ => exact absurd h (by simp)
    case _ cap r1 heq1 =>
      split at h
      case _ => exact absurd h (by simp)
      case _ skip r2' heq2 =>
        simp only [Option.some.injEq, Prod.mk.injEq] at h
        obtain ⟨rfl, rfl⟩ := h
        obtain ⟨pre, hpre⟩ := matchIfHead_decomp heq0
        obtain ⟨mid, hmid⟩ := findMarker_decomp heq1
        obtain ⟨mid2, hmid2⟩ := findMarker_decomp heq2
        rw [hpre, hmid, hmid2]
        simp only [countNL_append]
        omega

theorem tryIfEndMatch_count {s out r2 : Str} (h : tryIfEndMatch s = some (out, r2)) :
    countNL out + countNL r2 ≤ countNL s := by
  unfold tryIfEndMatch at h
  split at h
  case _ => exact absurd h (by simp)
  case _ r0 heq0 =>
    split at h
    case _ => exact absurd h (by simp)
    case _ cap r1 heq1 =>
      simp only [Option.some.injEq, Prod.mk.injEq] at h
      obtain ⟨rfl, rfl⟩ := h
      obtain ⟨pre, hpre⟩ := matchIfHead_decomp heq0
      obtain ⟨mid, hmid⟩ := findMarker_decomp heq1
      rw [hpre, hmid]
      simp only [countNL_append]
      omega

theorem tryTemplateMatch_count {s out r2 : Str} (h : tryTemplateMatch s = some (out, r2)) :
    countNL out + countNL r2 ≤ countNL s := by
  unfold tryTemplateMatch at h
  split at h
  case _ r =>
    split at h
    case _ inner rest heq =>
      simp only [Option.some.injEq, Prod.mk.injEq] at h
      obtain ⟨rfl, rfl⟩ := h
      obtain ⟨mid, hmid⟩ := findClose_decomp heq
      rw [hmid, replaceTemplate_countNL]
      simp only [countNL, List.count_cons, List.count_append]
      omega
    case _ => exact absurd h (by simp)
  case _ => exact absurd h (by simp)

theorem scanReplace_count_le (tm : Str → Option (Str × Str))
    (htm : ∀ s out r2, tm s = some (out, r2) → countNL out + countNL r2 ≤ countNL s) :
    ∀ fuel s, countNL (scanReplace tm fuel s) ≤ countNL s := by
  intro fuel
  induction fuel with
  | zero => intro s; simp [scanReplace]
  | succ f ih =>
    intro s
    cases s with
    | nil => simp [scanReplace]
    | cons c rest =>
      unfold scanReplace
      cases htm' : tm (c :: rest) with
      | some p =>
        obtain ⟨out, r2⟩ := p
        simp only
        have h1 := htm _ _ _ htm'
        have h2 := ih r2
        have h3 : countNL (out ++ scanReplace tm f r2) =
            countNL out + countNL (scanReplace tm f r2) := countNL_append _ _
        omega
      | none =>
        simp only
        have h2 := ih rest
        simp only [countNL, List.count_cons] at h2 ⊢
        omega

theorem Process_countNL_le (s : Str) : countNL (Process s) ≤ countNL s := by
  have h1 := scanReplace_count_le tryIfElseMatch
    (fun _ _ _ h => tryIfElseMatch_count h) s.length s
  have h2 := scanReplace_count_le tryIfEndMatch
    (fun _ _ _ h => tryIfEndMatch_count h) (ifElseEndReplaceAll s).length (ifElseEndReplaceAll s)
  have h3 := scanReplace_count_le tryTemplateMatch
    (fun _ _ _ h => tryTemplateMatch_count h)
    (ifEndReplaceAll (ifElseEndReplaceAll s)).length (ifEndReplaceAll (ifElseEndReplaceAll s))
  unfold Process templateReplaceAll ifEndReplaceAll ifElseEndReplaceAll at *
  omega

/-! Identity on directive-free text: every pattern of the preprocessor must
match a literal double open brace, so text without that token is untouched. -/

/-- The two-open-brace token that begins every directive pattern. -/
def braceOpen : Str := ['{', '{']

theorem containsSub_cons_false {p : Str} {c : Char} {rest : Str}
    (h : containsSub p (c :: rest) = false) : containsSub p rest = false := by
  unfold containsSub at h
  simp only [Bool.or_eq_false_iff] at h
  exact h.2

theorem startsWith_braceOpen_false {s : Str} (h : containsSub braceOpen s = false) :
    startsWith braceOpen s = false := by
  cases s with
  | nil => rfl
  | cons c rest =>
    unfold containsSub at h
    simp only [Bool.or_eq_false_iff] at h
    exact h.1

theorem matchIfHead_none {s : Str} (h : startsWith braceOpen s = false) :
    matchIfHead s = none := by
  unfold matchIfHead
  split
  · simp [braceOpen, startsWith] at h
  · rfl

theorem tryIfElseMatch_none {s : Str} (h : startsWith braceOpen s = false) :
    tryIfElseMatch s = none := by
  unfold tryIfElseMatch
  rw [matchIfHead_none h]

theorem tryIfEndMatch_none {s : Str} (h : startsWith braceOpen s = false) :
    tryIfEndMatch s = none := by
  unfold tryIfEndMatch
  rw [matchIfHead_none h]

theorem tryTemplateMatch_none {s : Str} (h : startsWith braceOpen s = false) :
    tryTemplateMatch s = none := by
  unfold tryTemplateMatch
  split
  · simp [braceOpen, startsWith] at h
  · rfl

theorem scanReplace_id (tm : Str → Option (Str × Str))
    (htm : ∀ s, containsSub braceOpen s = false → tm s = none) :
    ∀ fuel s, s.length ≤ fuel → containsSub braceOpen s = false →
      scanReplace tm fuel s = s := by
  intro fuel
  induction fuel with
  | zero =>
    intro s _ _
    rfl
  | succ f ih =>
    intro s hlen hnb
    cases s with
    | nil => rfl
    | cons c rest =>
      unfold scanReplace
      rw [htm _ hnb]
      simp only
      rw [ih rest (by simp only [List.length_cons] at hlen; omega)
        (containsSub_cons_false hnb)]

theorem Process_id {s : Str} (h : containsSub braceOpen s = false) : Process s = s := by
  unfold Process templateReplaceAll ifEndReplaceAll ifElseEndReplaceAll
  rw [scanReplace_id tryIfElseMatch
      (fun _ hh => tryIfElseMatch_none (startsWith_braceOpen_false hh)) _ _ le_rfl h,
    scanReplace_id tryIfEndMatch
      (fun _ hh => tryIfEndMatch_none (startsWith_braceOpen_false hh)) _ _ le_rfl h,
    scanReplace_id tryTemplateMatch
      (fun _ hh => tryTemplateMatch_none (startsWith_braceOpen_false hh)) _ _ le_rfl h]

/-- C9: the preprocessor is idempotent on output free of directive syntax:
whenever the bytes produced by Process contain no remaining double-brace
token, running Process on them yields those same bytes again. -/
theorem C9_process_idempotent_on_directive_free_output (s : Str)
    (h : containsSub braceOpen (Process s) = false) :
    Process (Process s) = Process s :=
  Process_id h

/-- Witness for C9 at the concrete input a-open-open .X close-close-b, whose
processed form aTMPLb contains no double brace. -/
theorem C9_process_idempotent_witness :
    containsSub braceOpen (Process (("a\x7b\x7b .X \x7d\x7db").toList)) = false ∧
    Process (Process (("a\x7b\x7b .X \x7d\x7db").toList)) =
      Process (("a\x7b\x7b .X \x7d\x7db").toList) :=
  ⟨by decide, C9_process_idempotent_on_directive_free_output _ (by decide)⟩

/-- C1: the spec states that Process preserves the newline count even when a
multi-line else-branch is removed, and the source comments assert that line
numbers are preserved; however on the input open-open if x close-close a
else-marker newline b end-marker the whole block is replaced by the if-branch
content a, so the newline inside the removed else-branch is dropped: the
input holds one newline and the output none. -/
theorem C1_process_drops_multiline_else_newlines :
    Process (("\x7b\x7bif x\x7d\x7da\x7b\x7belse\x7d\x7d\nb\x7b\x7bend\x7d\x7d").toList) =
      (("a").toList) ∧
    countNL (("\x7b\x7bif x\x7d\x7da\x7b\x7belse\x7d\x7d\nb\x7b\x7bend\x7d\x7d").toList) = 1 ∧
    countNL (Process (("\x7b\x7bif x\x7d\x7da\x7b\x7belse\x7d\x7d\nb\x7b\x7bend\x7d\x7d").toList)) = 0 := by
  refine ⟨?_, ?_, ?_⟩ <;> decide

/-! Behaviour on one non-nested if-else-end block.  The claim that the
else-branch never survives fails for nested blocks (see the counterexample),
but holds for a single block whose condition and branches are brace-free. -/

/-- Text containing neither brace: it can neither open nor close a directive
token, so markers can only match at its boundaries. -/
def braceFree (s : Str) : Bool := s.all (fun c => c ≠ '{' && c ≠ '}')

/-- The opening if-directive with condition cond, as produced by a template
author: open open if space cond close close. -/
def ifOpenTok (cond : Str) : Str :=
  '{' :: '{' :: 'i' :: 'f' :: ' ' :: (cond ++ ['}', '}'])

/-- The literal else marker. -/
def elseTok : Str := ['{', '{', 'e', 'l', 's', 'e', '}', '}']

/-- The literal end marker. -/
def endTok : Str := ['{', '{', 'e', 'n', 'd', '}', '}']

theorem braceFree_cons {c : Char} {rest : Str} (h : braceFree (c :: rest) = true) :
    (c ≠ '{' ∧ c ≠ '}') ∧ braceFree rest = true := by
  simp only [braceFree, List.all_cons, Bool.and_eq_true, decide_eq_true_eq] at h ⊢
  exact ⟨⟨h.1.1, h.1.2⟩, h.2⟩

theorem braceFree_no_open {A : Str} (hA : braceFree A = true) :
    containsSub braceOpen A = false := by
  induction A with
  | nil => rfl
  | cons c rest ih =>
    obtain ⟨⟨hc, _⟩, hrest⟩ := braceFree_cons hA
    unfold containsSub
    have h1 : startsWith braceOpen (c :: rest) = false := by
      simp only [braceOpen, startsWith, Bool.and_eq_false_iff, decide_eq_false_iff_not]
      exact Or.inl (fun he => hc he.symm)
    rw [h1, ih hrest]
    rfl

theorem dropWhile_append_all {p : Char → Bool} {l1 : Str} (l2 : Str)
    (h : ∀ c ∈ l1, p c = true) :
    (l1 ++ l2).dropWhile p = l2.dropWhile p := by
  induction l1 with
  | nil => rfl
  | cons c rest ih =>
    have hc := h c (List.mem_cons_self _ _)
    simp only [List.cons_append, List.dropWhile_cons, hc, if_true]
    exact ih (fun d hd => h d (List.mem_cons_of_mem _ hd))

theorem matchMarker_none {w s : Str} (h : startsWith braceOpen s = false) :
    matchMarker w s = none := by
  unfold matchMarker
  split
  · simp [braceOpen, startsWith] at h
  · rfl

theorem findMarker_append {w A s : Str} (hA : braceFree A = true) :
    findMarker w (A ++ s) = (findMarker w s).map (fun p => (A ++ p.1, p.2)) := by
  induction A with
  | nil =>
    cases h : findMarker w s with
    | none => simp [h]
    | some p => simp [h]
  | cons c rest ih =>
    obtain ⟨⟨hc, _⟩, hrest⟩ := braceFree_cons hA
    have hsw : startsWith braceOpen (c :: (rest ++ s)) = false := by
      simp only [braceOpen, startsWith, Bool.and_eq_false_iff, decide_eq_false_iff_not]
      exact Or.inl (fun he => hc he.symm)
    simp only [List.cons_append]
    have hstep : findMarker w (c :: (rest ++ s)) =
        (match matchMarker w (c :: (rest ++ s)) with
          | some r1 => some (([] : Str), r1)
          | none =>
            match findMarker w (rest ++ s) with
            | some (cap, r1) => some (c :: cap, r1)
            | none => none) := rfl
    rw [hstep, matchMarker_none hsw, ih hrest]
    cases h : findMarker w s with
    | none => simp
    | some p => simp

theorem matchIfHead_ifOpenTok {cond : Str} (rest : Str) (hc : braceFree cond = true) :
    matchIfHead (ifOpenTok cond ++ rest) = some rest := by
  have hstep : matchIfHead (ifOpenTok cond ++ rest) =
      eatCondClose ((cond ++ ['}', '}']) ++ rest) := rfl
  rw [hstep]
  unfold eatCondClose
  rw [List.append_assoc]
  rw [dropWhile_append_all (('}' :: '}' :: []) ++ rest)
    (fun c hcm => by
      obtain ⟨⟨_, hcr⟩, _⟩ : (c ≠ '{' ∧ c ≠ '}') ∧ True := by
        have := (List.all_eq_true.mp hc) c hcm
        simp only [Bool.and_eq_true, decide_eq_true_eq] at this
        exact ⟨this, trivial⟩
      simpa using hcr)]
  rfl

theorem findMarker_elseTok (rest : Str) :
    findMarker elseWord (elseTok ++ rest) = some ([], rest) := rfl

theorem findMarker_endTokOnly : findMarker endWord endTok = some ([], []) := rfl

theorem tryIfElseMatch_block {cond A B : Str} (hc : braceFree cond = true)
    (hA : braceFree A = true) (hB : braceFree B = true) :
    tryIfElseMatch (ifOpenTok cond ++ (A ++ (elseTok ++ (B ++ endTok)))) = some (A, []) := by
  have h0 : matchIfHead (ifOpenTok cond ++ (A ++ (elseTok ++ (B ++ endTok)))) =
      some (A ++ (elseTok ++ (B ++ endTok))) := matchIfHead_ifOpenTok _ hc
  have h1 : findMarker elseWord (A ++ (elseTok ++ (B ++ endTok))) =
      some (A, B ++ endTok) := by
    rw [findMarker_append hA, findMarker_elseTok]
    simp
  have h2 : findMarker endWord (B ++ endTok) = some (B, []) := by
    rw [findMarker_append hB, findMarker_endTokOnly]
    simp
  simp [tryIfElseMatch, h0, h1, h2]

/-- One scan step at a successful match. -/
theorem scanReplace_nil (tm : Str → Option (Str × Str)) (fuel : Nat) :
    scanReplace tm fuel [] = [] := by
  cases fuel <;> rfl

/-- A match consuming the whole input replaces it entirely. -/
theorem scanReplace_whole {tm : Str → Option (Str × Str)} {s out : Str}
    (h : tm s = some (out, [])) (hne : s ≠ []) :
    scanReplace tm s.length s = out := by
  cases s with
  | nil => exact absurd rfl hne
  | cons c rest =>
    simp only [List.length_cons]
    unfold scanReplace
    rw [h]
    simp [scanReplace_nil]

/-- C3 amended: for a single non-nested block whose condition and branches
contain no brace, Process replaces the whole block by the if-branch alone, so
the else-branch content is removed.  (For nested blocks the claim fails, see
the counterexample.) -/
theorem C3_amended_single_block (cond A B : Str) (hc : braceFree cond = true)
    (hA : braceFree A = true) (hB : braceFree B = true) :
    Process (ifOpenTok cond ++ (A ++ (elseTok ++ (B ++ endTok)))) = A := by
  have hmatch := tryIfElseMatch_block hc hA hB
  have hne : ifOpenTok cond ++ (A ++ (elseTok ++ (B ++ endTok))) ≠ [] := by
    simp [ifOpenTok]
  have h1 : ifElseEndReplaceAll (ifOpenTok cond ++ (A ++ (elseTok ++ (B ++ endTok)))) = A := by
    unfold ifElseEndReplaceAll
    exact scanReplace_whole hmatch hne
  have hnb : containsSub braceOpen A = false := braceFree_no_open hA
  unfold Process templateReplaceAll ifEndReplaceAll
  rw [h1]
  rw [scanReplace_id tryIfEndMatch
    (fun _ hh => tryIfEndMatch_none (startsWith_braceOpen_false hh)) _ _ le_rfl hnb]
  rw [scanReplace_id tryTemplateMatch
    (fun _ hh => tryTemplateMatch_none (startsWith_braceOpen_false hh)) _ _ le_rfl hnb]

/-- Witness for the amended C3 at condition x, if-branch a, else-branch b:
the processed block is exactly a. -/
theorem C3_amended_single_block_witness :
    braceFree (("x").toList) = true ∧ braceFree (("a").toList) = true ∧
    braceFree (("b").toList) = true ∧
    Process (ifOpenTok (("x").toList) ++
      ((("a").toList) ++ (elseTok ++ ((("b").toList) ++ endTok)))) = ("a").toList :=
  ⟨by decide, by decide, by decide,
    C3_amended_single_block _ _ _ (by decide) (by decide) (by decide)⟩

/-- C3 counterexample: the non-greedy multi-line pattern pairs an outer if
with the first (inner) else marker, so nesting is not handled; on the input
if a, X, nested if b with branches Y and Z, then W, outer else V, the
preprocessed output is XYWV, in which the outer else-branch content V
appears, contradicting the claim that else-branch content never appears. -/
theorem C3_counterexample_nested_else_survives :
    Process (("\x7b\x7bif a\x7d\x7dX\x7b\x7bif b\x7d\x7dY\x7b\x7belse\x7d\x7dZ\x7b\x7bend\x7d\x7dW\x7b\x7belse\x7d\x7dV\x7b\x7bend\x7d\x7d").toList) =
      ("XYWV").toList ∧
    'V' ∈ Process (("\x7b\x7bif a\x7d\x7dX\x7b\x7bif b\x7d\x7dY\x7b\x7belse\x7d\x7dZ\x7b\x7bend\x7d\x7dW\x7b\x7belse\x7d\x7dV\x7b\x7bend\x7d\x7d").toList) := by
  refine ⟨?_, ?_⟩ <;> decide

/-!
Document model of the parser package: parsed nodes and the rule interface
types shared by all rule embeddings below.
-/

/-- Node kinds of golang.org/x/net/html that the rules distinguish. -/
inductive NodeType
  | documentNode
  | elementNode
  | textNode
deriving DecidableEq

/-- One attribute key-value pair of an element node. -/
structure HAttr where
  key : Str
  val : Str
deriving DecidableEq

mutual

/-- Model of parser.Node: the wrapped html.Node data (kind, tag name or text,
ordered attribute list), the best-effort position, and the owned ordered
children.  The Go Parent back-pointer is recoverable as the path from the
root and is not consulted by the rules embedded here.  The children are a
dedicated forest type so that tree recursions are structural. -/
inductive PNode where
  | mk (ntype : NodeType) (ndata : Str) (attr : List HAttr)
      (line : Nat) (col : Nat) (children : PForest)

/-- Ordered list of owned children of a node. -/
inductive PForest where
  | nil
  | cons (hd : PNode) (tl : PForest)

end

/-- Kind of a node. -/
def PNode.ntype : PNode → NodeType
  | .mk t _ _ _ _ _ => t

/-- Tag name (elements) or text data of a node. -/
def PNode.ndata : PNode → Str
  | .mk _ d _ _ _ _ => d

/-- Ordered attribute list of a node. -/
def PNode.attr : PNode → List HAttr
  | .mk _ _ a _ _ _ => a

/-- Best-effort line of a node. -/
def PNode.line : PNode → Nat
  | .mk _ _ _ l _ _ => l

/-- Best-effort column of a node. -/
def PNode.col : PNode → Nat
  | .mk _ _ _ _ c _ => c

/-- Children forest of a node. -/
def PNode.children : PNode → PForest
  | .mk _ _ _ _ _ ch => ch

/-- Forest of an ordered child list. -/
def ofList : List PNode → PForest
  | [] => .nil
  | n :: l => .cons n (ofList l)

/-- Model of parser.Document. -/
structure Document where
  root : PNode
  filename : Str
  isTemplateFragment : Bool

mutual

/-- The node visit order of Document.Walk for a callback that always returns
true: the callbacks of the rules embedded here (ValidFor.Check and
HTMXAttributes.Check) return true at every node, so Walk visits exactly this
preorder sequence. -/
def preorder : PNode → List PNode
  | .mk t d a l c ch => .mk t d a l c ch :: preorderForest ch

/-- Preorder sequence of a forest of children. -/
def preorderForest : PForest → List PNode
  | .nil => []
  | .cons c cs => preorder c ++ preorderForest cs

end

/-- Model of Go strings.EqualFold on ASCII text. -/
def equalFold (a b : Str) : Bool := lowerStr a = lowerStr b

/-- Model of the method HasAttr of parser.Node. -/
def hasAttr (n : PNode) (name : Str) : Bool :=
  n.attr.any (fun a => equalFold a.key name)

/-- Model of the method GetAttr of parser.Node: value of the first attribute
whose key matches case-insensitively, or the empty string. -/
def getAttr (n : PNode) (name : Str) : Str :=
  match n.attr.find? (fun a => equalFold a.key name) with
  | some a => a.val
  | none => []

/-- Model of the method IsElement of parser.Node. -/
def isElement (n : PNode) (tag : Str) : Bool :=
  n.ntype = NodeType.elementNode && equalFold n.ndata tag

/-- Diagnostic severity. -/
inductive Severity
  | error
  | warning
deriving DecidableEq

/-- Model of rules.Result: one diagnostic. -/
structure Result where
  rule : Str
  message : Str
  filename : Str
  line : Nat
  col : Nat
  severity : Severity
deriving DecidableEq

/-- Modelled from the spec: the rule identifier constants (RuleValidFor and
its siblings) are declared in a source file that is not under src; the spec
lists a stable identifier per rule, and no claim depends on the exact
string. -/
def RuleValidFor : Str := ("valid-for").toList

/-- Modelled from the spec: stable identifier of the framework
attribute-grammar rule (declared outside src). -/
def RuleHTMXAttributes : Str := ("htmx-attributes").toList

/-- Modelled from the spec: stable identifier of the character-reference rule
(declared outside src). -/
def RuleUnrecognizedCharRef : Str := ("unrecognized-character-reference").toList

/-- Modelled from the spec: the helper IsTemplateExpr of package rules is
declared in a source file that is not under src; per the spec, a value is
treated as templated (and skipped) when it still contains the double-brace
token or the fixed 4-character placeholder TMPL left by the preprocessor. -/
def IsTemplateExpr (v : Str) : Bool :=
  containsSub braceOpen v || containsSub (("TMPL").toList) v

/-- The labelableElements set of the valid-for rule source file. -/
def labelableElements : List Str :=
  [("input").toList, ("textarea").toList, ("select").toList, ("button").toList,
   ("output").toList, ("meter").toList, ("progress").toList]

/-- First walk of ValidFor.Check: collect the id-to-node bindings in visit
order.  A Go map write idMap[id] = n overwrites, so lookups must take the
last binding. -/
def collectIds (doc : Document) : List (Str × PNode) :=
  (preorder doc.root).foldl
    (fun m n =>
      if n.ntype = NodeType.elementNode && hasAttr n (("id").toList) &&
          getAttr n (("id").toList) ≠ [] then
        m ++ [(getAttr n (("id").toList), n)]
      else m) []

/-- Lookup in the binding list with Go map semantics: the last write wins. -/
def mapLookup (m : List (Str × PNode)) (k : Str) : Option PNode :=
  match m.reverse.find? (fun p => p.1 = k) with
  | some p => some p.2
  | none => none

/-- Per-node body of the second walk of ValidFor.Check. -/
def validForNode (fname : Str) (idMap : List (Str × PNode)) (n : PNode) : List Result :=
  if ¬ (n.ntype = NodeType.elementNode) || ¬ (isElement n (("label").toList)) then []
  else
    let forAttr := getAttr n (("for").toList)
    if forAttr = [] then []
    else if IsTemplateExpr forAttr then []
    else
      match mapLookup idMap forAttr with
      | none => []
      | some target =>
        let tag := lowerStr target.ndata
        if ¬ labelableElements.contains tag then
          [⟨RuleValidFor,
            ("label for attribute references non-labelable element <").toList ++
              tag ++ (">").toList,
            fname, n.line, n.col, Severity.error⟩]
        else if tag = ("input").toList &&
            lowerStr (getAttr target (("type").toList)) = ("hidden").toList then
          [⟨RuleValidFor, ("label for attribute references hidden input").toList,
            fname, n.line, n.col, Severity.error⟩]
        else []

/-- Model of the method Check of the ValidFor rule: build the id index in one
walk, then emit the per-label diagnostics of a second walk. -/
def ValidForCheck (doc : Document) : List Result :=
  (preorder doc.root).flatMap (validForNode doc.filename (collectIds doc))

/-- C4: the valid-for Check aggregates the per-node results over the document
walk and, for a label node whose for value is non-empty and not templated:
an unresolved reference produces no diagnostic; a reference to an element
whose tag is not labelable produces exactly the non-labelable Error; a
reference to an input of type hidden produces exactly the hidden-input Error;
a reference to a labelable element that is not a hidden input produces no
diagnostic. -/
theorem C4_valid_for_cases (doc : Document) (n : PNode)
    (helem : isElement n (("label").toList) = true)
    (hfor : getAttr n (("for").toList) ≠ [])
    (htmpl : IsTemplateExpr (getAttr n (("for").toList)) = false) :
    (ValidForCheck doc =
      (preorder doc.root).flatMap (validForNode doc.filename (collectIds doc))) ∧
    (mapLookup (collectIds doc) (getAttr n (("for").toList)) = none →
      validForNode doc.filename (collectIds doc) n = []) ∧
    (∀ target, mapLookup (collectIds doc) (getAttr n (("for").toList)) = some target →
      labelableElements.contains (lowerStr target.ndata) = false →
      validForNode doc.filename (collectIds doc) n =
        [⟨RuleValidFor,
          ("label for attribute references non-labelable element <").toList ++
            lowerStr target.ndata ++ (">").toList,
          doc.filename, n.line, n.col, Severity.error⟩]) ∧
    (∀ target, mapLookup (collectIds doc) (getAttr n (("for").toList)) = some target →
      lowerStr target.ndata = ("input").toList →
      lowerStr (getAttr target (("type").toList)) = ("hidden").toList →
      validForNode doc.filename (collectIds doc) n =
        [⟨RuleValidFor, ("label for attribute references hidden input").toList,
          doc.filename, n.line, n.col, Severity.error⟩]) ∧
    (∀ target, mapLookup (collectIds doc) (getAttr n (("for").toList)) = some target →
      labelableElements.contains (lowerStr target.ndata) = true →
      (lowerStr target.ndata = ("input").toList →
        lowerStr (getAttr target (("type").toList)) ≠ ("hidden").toList) →
      validForNode doc.filename (collectIds doc) n = []) := by
  have hnt : n.ntype = NodeType.elementNode := by
    simp only [isElement, Bool.and_eq_true, decide_eq_true_eq] at helem
    exact helem.1
  refine ⟨rfl, ?_, ?_, ?_, ?_⟩
  · intro hnone
    simp_all [validForNode]
  · intro target hsome hnl
    simp_all [validForNode]
  · intro target hsome htag hty
    have hlb : labelableElements.contains (lowerStr target.ndata) = true := by
      rw [htag]; decide
    simp_all [validForNode]
  · intro target hsome hlb himp
    by_cases htag : lowerStr target.ndata = ("input").toList
    · have hty := himp htag
      simp_all [validForNode]
    · simp_all [validForNode]

/-- Label element with a for attribute, shared by the concrete documents of
the witnesses. -/
def exLabel (v : Str) : PNode :=
  ⟨NodeType.elementNode, ("label").toList, [⟨("for").toList, v⟩], 1, 1, .nil⟩

/-- Element with one id attribute. -/
def exIdElem (tag id : Str) : PNode :=
  ⟨NodeType.elementNode, tag, [⟨("id").toList, id⟩], 1, 1, .nil⟩

/-- Input element with an id and a type attribute. -/
def exInput (id ty : Str) : PNode :=
  ⟨NodeType.elementNode, ("input").toList,
    [⟨("id").toList, id⟩, ⟨("type").toList, ty⟩], 1, 1, .nil⟩

/-- Document wrapping a child list under a synthetic document root. -/
def exDoc (ns : List PNode) : Document :=
  ⟨⟨NodeType.documentNode, [], [], 1, 1, ofList ns⟩, ("test.html").toList, false⟩

/-- Witness for C4: the four reference situations at concrete documents — a
dangling reference, a reference to a div, a reference to a hidden input, and
a reference to a text input. -/
theorem C4_valid_for_cases_witness :
    (validForNode (exDoc [exLabel (("x").toList)]).filename
      (collectIds (exDoc [exLabel (("x").toList)])) (exLabel (("x").toList)) = []) ∧
    (validForNode (exDoc [exLabel (("y").toList), exIdElem (("div").toList) (("y").toList)]).filename
      (collectIds (exDoc [exLabel (("y").toList), exIdElem (("div").toList) (("y").toList)]))
      (exLabel (("y").toList)) =
      [⟨RuleValidFor,
        ("label for attribute references non-labelable element <div>").toList,
        ("test.html").toList, 1, 1, Severity.error⟩]) ∧
    (validForNode (exDoc [exLabel (("z").toList), exInput (("z").toList) (("hidden").toList)]).filename
      (collectIds (exDoc [exLabel (("z").toList), exInput (("z").toList) (("hidden").toList)]))
      (exLabel (("z").toList)) =
      [⟨RuleValidFor, ("label for attribute references hidden input").toList,
        ("test.html").toList, 1, 1, Severity.error⟩]) ∧
    (validForNode (exDoc [exLabel (("w").toList), exInput (("w").toList) (("text").toList)]).filename
      (collectIds (exDoc [exLabel (("w").toList), exInput (("w").toList) (("text").toList)]))
      (exLabel (("w").toList)) = []) := by
  refine ⟨?_, ?_, ?_, ?_⟩
  · exact (C4_valid_for_cases (exDoc [exLabel (("x").toList)]) (exLabel (("x").toList))
      (by decide) (by decide) (by decide)).2.1 (by rfl)
  · have h := (C4_valid_for_cases
      (exDoc [exLabel (("y").toList), exIdElem (("div").toList) (("y").toList)])
      (exLabel (("y").toList)) (by decide) (by decide) (by decide)).2.2.1
      (exIdElem (("div").toList) (("y").toList)) (by rfl) (by decide)
    simpa using h
  · exact (C4_valid_for_cases
      (exDoc [exLabel (("z").toList), exInput (("z").toList) (("hidden").toList)])
      (exLabel (("z").toList)) (by decide) (by decide) (by decide)).2.2.2.1
      (exInput (("z").toList) (("hidden").toList)) (by rfl) (by decide) (by decide)
  · exact (C4_valid_for_cases
      (exDoc [exLabel (("w").toList), exInput (("w").toList) (("text").toList)])
      (exLabel (("w").toList)) (by decide) (by decide) (by decide)).2.2.2.2
      (exInput (("w").toList) (("text").toList)) (by rfl) (by decide) (by decide)


/-!
Framework attribute-grammar validator (rules/htmx_attributes.go).
-/

/-- Model of the rule struct HTMXAttributes: the framework-enabled flag and
version string set by Configure. -/
structure HTMXAttributes where
  htmxEnabled : Bool
  htmxVersion : Str

/-- The validSwapValues table: valid hx-swap base values. -/
def validSwapValues : List Str :=
  [(("innerhtml").toList), (("outerhtml").toList), (("beforebegin").toList),
   (("afterbegin").toList), (("beforeend").toList), (("afterend").toList), (("delete").toList),
   (("none").toList), (("textcontent").toList), (("upsert").toList)]

/-- The validSwapModifiers table: valid hx-swap modifiers. -/
def validSwapModifiers : List Str :=
  [(("swap").toList), (("settle").toList), (("scroll").toList), (("show").toList),
   (("focus-scroll").toList), (("transition").toList), (("ignoreTitle").toList)]

/-- The validTriggerModifiers table: valid hx-trigger event modifiers. -/
def validTriggerModifiers : List Str :=
  [(("once").toList), (("changed").toList), (("delay").toList), (("throttle").toList),
   (("from").toList), (("target").toList), (("consume").toList), (("queue").toList),
   (("root").toList), (("threshold").toList)]

/-- The knownDOMEvents table: DOM events valid in hx-on attributes. -/
def knownDOMEvents : List Str :=
  [(("click").toList), (("dblclick").toList), (("mousedown").toList), (("mouseup").toList),
   (("mousemove").toList), (("mouseenter").toList), (("mouseleave").toList),
   (("mouseover").toList), (("mouseout").toList), (("keydown").toList), (("keyup").toList),
   (("keypress").toList), (("submit").toList), (("change").toList), (("input").toList),
   (("focus").toList), (("blur").toList), (("reset").toList), (("invalid").toList),
   (("select").toList), (("load").toList), (("unload").toList), (("resize").toList),
   (("scroll").toList), (("error").toList), (("beforeunload").toList), (("hashchange").toList),
   (("popstate").toList), (("drag").toList), (("dragstart").toList), (("dragend").toList),
   (("dragover").toList), (("dragenter").toList), (("dragleave").toList), (("drop").toList),
   (("touchstart").toList), (("touchend").toList), (("touchmove").toList),
   (("touchcancel").toList), (("pointerdown").toList), (("pointerup").toList),
   (("pointermove").toList), (("pointerenter").toList), (("pointerleave").toList),
   (("pointerover").toList), (("pointerout").toList), (("pointercancel").toList),
   (("animationstart").toList), (("animationend").toList), (("animationiteration").toList),
   (("transitionstart").toList), (("transitionend").toList), (("transitionrun").toList),
   (("transitioncancel").toList), (("copy").toList), (("cut").toList), (("paste").toList),
   (("play").toList), (("pause").toList), (("ended").toList), (("volumechange").toList),
   (("seeking").toList), (("seeked").toList), (("timeupdate").toList), (("loadeddata").toList),
   (("loadedmetadata").toList), (("contextmenu").toList), (("wheel").toList),
   (("compositionstart").toList), (("compositionend").toList)]

/-- The knownHTMXv2Events table: htmx v2 event names. -/
def knownHTMXv2Events : List Str :=
  [(("htmx:abort").toList), (("htmx:afterOnLoad").toList), (("htmx:afterProcessNode").toList),
   (("htmx:afterRequest").toList), (("htmx:afterSettle").toList), (("htmx:afterSwap").toList),
   (("htmx:beforeCleanupElement").toList), (("htmx:beforeOnLoad").toList),
   (("htmx:beforeProcessNode").toList), (("htmx:beforeRequest").toList),
   (("htmx:beforeSend").toList), (("htmx:beforeSwap").toList),
   (("htmx:beforeTransition").toList), (("htmx:configRequest").toList),
   (("htmx:confirm").toList), (("htmx:historyCacheError").toList),
   (("htmx:historyCacheHit").toList), (("htmx:historyCacheMiss").toList),
   (("htmx:historyCacheMissLoad").toList), (("htmx:historyCacheMissLoadError").toList),
   (("htmx:historyRestore").toList), (("htmx:beforeHistorySave").toList),
   (("htmx:beforeHistoryUpdate").toList), (("htmx:load").toList),
   (("htmx:noSSESourceError").toList), (("htmx:oobAfterSwap").toList),
   (("htmx:oobBeforeSwap").toList), (("htmx:oobErrorNoTarget").toList),
   (("htmx:onLoadError").toList), (("htmx:prompt").toList), (("htmx:pushedIntoHistory").toList),
   (("htmx:replacedInHistory").toList), (("htmx:responseError").toList),
   (("htmx:sendAbort").toList), (("htmx:sendError").toList), (("htmx:sseError").toList),
   (("htmx:swapError").toList), (("htmx:targetError").toList), (("htmx:timeout").toList),
   (("htmx:trigger").toList), (("htmx:validateUrl").toList),
   (("htmx:validation:validate").toList), (("htmx:validation:failed").toList),
   (("htmx:validation:halted").toList), (("htmx:xhr:abort").toList),
   (("htmx:xhr:loadstart").toList), (("htmx:xhr:loadend").toList),
   (("htmx:xhr:progress").toList)]

/-- The knownHTMXv4Phases table: htmx v4 event phases. -/
def knownHTMXv4Phases : List Str :=
  [(("before").toList), (("after").toList), (("error").toList), (("finally").toList)]

/-- The knownHTMXv4Actions table: htmx v4 event actions. -/
def knownHTMXv4Actions : List Str :=
  [(("request").toList), (("swap").toList), (("settle").toList), (("send").toList),
   (("process").toList), (("cleanup").toList), (("onLoad").toList), (("transition").toList),
   (("viewTransition").toList), (("history").toList), (("historyUpdate").toList),
   (("historySave").toList), (("sse").toList), (("oob").toList)]

/-- The queueModes table: valid hx-trigger queue modes. -/
def queueModes : List Str :=
  [(("first").toList), (("last").toList), (("all").toList), (("none").toList)]

/-- The element table of isValidElement: known HTML element names. -/
def validElementNames : List Str :=
  [(("a").toList), (("abbr").toList), (("address").toList), (("area").toList),
   (("article").toList), (("aside").toList), (("audio").toList), (("b").toList),
   (("base").toList), (("bdi").toList), (("bdo").toList), (("blockquote").toList),
   (("body").toList), (("br").toList), (("button").toList), (("canvas").toList),
   (("caption").toList), (("cite").toList), (("code").toList), (("col").toList),
   (("colgroup").toList), (("data").toList), (("datalist").toList), (("dd").toList),
   (("del").toList), (("details").toList), (("dfn").toList), (("dialog").toList),
   (("div").toList), (("dl").toList), (("dt").toList), (("em").toList), (("embed").toList),
   (("fieldset").toList), (("figcaption").toList), (("figure").toList), (("footer").toList),
   (("form").toList), (("h1").toList), (("h2").toList), (("h3").toList), (("h4").toList),
   (("h5").toList), (("h6").toList), (("head").toList), (("header").toList),
   (("hgroup").toList), (("hr").toList), (("html").toList), (("i").toList), (("iframe").toList),
   (("img").toList), (("input").toList), (("ins").toList), (("kbd").toList), (("label").toList),
   (("legend").toList), (("li").toList), (("link").toList), (("main").toList), (("map").toList),
   (("mark").toList), (("menu").toList), (("meta").toList), (("meter").toList),
   (("nav").toList), (("noscript").toList), (("object").toList), (("ol").toList),
   (("optgroup").toList), (("option").toList), (("output").toList), (("p").toList),
   (("picture").toList), (("pre").toList), (("progress").toList), (("q").toList),
   (("rp").toList), (("rt").toList), (("ruby").toList), (("s").toList), (("samp").toList),
   (("script").toList), (("search").toList), (("section").toList), (("select").toList),
   (("slot").toList), (("small").toList), (("source").toList), (("span").toList),
   (("strong").toList), (("style").toList), (("sub").toList), (("summary").toList),
   (("sup").toList), (("table").toList), (("tbody").toList), (("td").toList),
   (("template").toList), (("textarea").toList), (("tfoot").toList), (("th").toList),
   (("thead").toList), (("time").toList), (("title").toList), (("tr").toList),
   (("track").toList), (("u").toList), (("ul").toList), (("var").toList), (("video").toList),
   (("wbr").toList)]

/-- The standaloneEvents table of validateHTMXv4Event. -/
def standaloneEvents : List Str :=
  [(("load").toList), (("abort").toList), (("trigger").toList), (("confirm").toList),
   (("prompt").toList)]

/-- Model of timePattern (digits then ms or s, anchored both ends): the
greedy digit run cannot overlap the unit suffix, so the regex is exactly
this split. -/
def timeMatch (s : Str) : Bool :=
  let ds := s.takeWhile isDigitChar
  let rest := s.dropWhile isDigitChar
  ds ≠ [] && (rest = ("ms").toList || rest = ("s").toList)

/-- The inline template-skip test of every validator: the value contains the
raw double-brace token or the preprocessed placeholder. -/
def isTemplatedValue (v : Str) : Bool :=
  containsSub braceOpen v || containsSub (("TMPL").toList) v

/-- Body of the modifier loop of validateSwap for one whitespace-separated
modifier token. -/
def validateSwapModifier (filename : Str) (n : PNode) (modifier : Str) : List Result :=
  match breakAt ':' modifier with
  | none =>
    [⟨RuleHTMXAttributes,
      ("invalid hx-swap modifier \x27").toList ++ modifier ++ ("\x27 (missing colon)").toList,
      filename, n.line, n.col, Severity.error⟩]
  | some (mn, mv) =>
    let modName := lowerStr mn
    if ¬ validSwapModifiers.contains modName then
      [⟨RuleHTMXAttributes,
        ("unknown hx-swap modifier \x27").toList ++ modName ++ ("\x27").toList,
        filename, n.line, n.col, Severity.warning⟩]
    else if modName = ("swap").toList || modName = ("settle").toList then
      if ¬ timeMatch mv then
        [⟨RuleHTMXAttributes,
          ("hx-swap ").toList ++ modName ++
            (" modifier requires a time value (e.g., \x271s\x27, \x27500ms\x27)").toList,
          filename, n.line, n.col, Severity.error⟩]
      else []
    else if modName = ("scroll").toList || modName = ("show").toList then
      if ¬ (lowerStr mv = ("top").toList || lowerStr mv = ("bottom").toList) &&
          ¬ startsWith (("#").toList) mv then
        [⟨RuleHTMXAttributes,
          ("hx-swap ").toList ++ modName ++
            (" modifier value should be \x27top\x27, \x27bottom\x27, or a selector").toList,
          filename, n.line, n.col, Severity.warning⟩]
      else []
    else if modName = ("focus-scroll").toList then
      if mv ≠ ("true").toList && mv ≠ ("false").toList then
        [⟨RuleHTMXAttributes,
          ("hx-swap focus-scroll modifier should be \x27true\x27 or \x27false\x27").toList,
          filename, n.line, n.col, Severity.error⟩]
      else []
    else if modName = ("transition").toList then
      if mv ≠ ("true").toList && mv ≠ ("false").toList then
        [⟨RuleHTMXAttributes,
          ("hx-swap transition modifier should be \x27true\x27 or \x27false\x27").toList,
          filename, n.line, n.col, Severity.error⟩]
      else []
    else []

/-- Model of the method validateSwap of HTMXAttributes. -/
def validateSwap (r : HTMXAttributes) (filename : Str) (n : PNode) (value : Str) :
    List Result :=
  if value = [] then []
  else if isTemplatedValue value then []
  else
    match fields (trimSpace value) with
    | [] => []
    | p0 :: mods =>
      let baseValue := lowerStr p0
      if r.htmxVersion ≠ ("4").toList &&
          (baseValue = ("textcontent").toList || baseValue = ("upsert").toList) then
        [⟨RuleHTMXAttributes,
          ("hx-swap value \x27").toList ++ baseValue ++
            ("\x27 is only available in htmx 4").toList,
          filename, n.line, n.col, Severity.warning⟩]
      else if ¬ validSwapValues.contains baseValue then
        [⟨RuleHTMXAttributes,
          ("invalid hx-swap value \x27").toList ++ p0 ++ ("\x27").toList,
          filename, n.line, n.col, Severity.error⟩]
      else mods.flatMap (validateSwapModifier filename n)

/-- Body of the modifier loop of validateSingleTrigger for one ordinary
(non-every, non-intersect) modifier token. -/
def validateTriggerModifier (filename : Str) (n : PNode) (modifier : Str) : List Result :=
  if startsWith (("[").toList) modifier && endsWith (("]").toList) modifier then []
  else
    match breakAt ':' modifier with
    | none =>
      let modName := lowerStr modifier
      if ¬ validTriggerModifiers.contains modName then
        [⟨RuleHTMXAttributes,
          ("unknown hx-trigger modifier \x27").toList ++ modifier ++ ("\x27").toList,
          filename, n.line, n.col, Severity.warning⟩]
      else []
    | some (mn, mv) =>
      let modName := lowerStr mn
      if ¬ validTriggerModifiers.contains modName then
        [⟨RuleHTMXAttributes,
          ("unknown hx-trigger modifier \x27").toList ++ modName ++ ("\x27").toList,
          filename, n.line, n.col, Severity.warning⟩]
      else if modName = ("delay").toList || modName = ("throttle").toList then
        if ¬ timeMatch mv then
          [⟨RuleHTMXAttributes,
            ("hx-trigger ").toList ++ modName ++
              (" requires a time value (e.g., \x271s\x27, \x27500ms\x27)").toList,
            filename, n.line, n.col, Severity.error⟩]
        else []
      else if modName = ("queue").toList then
        if ¬ queueModes.contains (lowerStr mv) then
          [⟨RuleHTMXAttributes,
            ("hx-trigger queue mode should be \x27first\x27, \x27last\x27, \x27all\x27, or \x27none\x27").toList,
            filename, n.line, n.col, Severity.error⟩]
        else []
      else []

/-- Model of the method validateSingleTrigger of HTMXAttributes. -/
def validateSingleTrigger (r : HTMXAttributes) (filename : Str) (n : PNode)
    (trigger : Str) : List Result :=
  match fields trigger with
  | [] => []
  | p0 :: restParts =>
    let eventName := lowerStr p0
    if eventName = ("every").toList then
      match restParts with
      | [] =>
        [⟨RuleHTMXAttributes,
          ("hx-trigger \x27every\x27 requires a time value (e.g., \x27every 1s\x27)").toList,
          filename, n.line, n.col, Severity.error⟩]
      | t :: _ =>
        if ¬ timeMatch t then
          [⟨RuleHTMXAttributes,
            ("hx-trigger \x27every\x27 requires a valid time value (e.g., \x271s\x27, \x27500ms\x27)").toList,
            filename, n.line, n.col, Severity.error⟩]
        else []
    else if eventName = ("intersect").toList then
      restParts.flatMap (fun m =>
        if startsWith (("root:").toList) m || startsWith (("threshold:").toList) m then []
        else if m = ("once").toList then []
        else
          [⟨RuleHTMXAttributes,
            ("unknown intersect modifier \x27").toList ++ m ++ ("\x27").toList,
            filename, n.line, n.col, Severity.warning⟩])
    else restParts.flatMap (validateTriggerModifier filename n)

/-- Model of the method validateTrigger of HTMXAttributes: comma-separated
trigger specs, each trimmed and validated independently. -/
def validateTrigger (r : HTMXAttributes) (filename : Str) (n : PNode) (value : Str) :
    List Result :=
  if value = [] then []
  else if isTemplatedValue value then []
  else
    (splitChar ',' (trimSpace value)).flatMap (fun trigger =>
      let trigger := trimSpace trigger
      if trigger = [] then []
      else validateSingleTrigger r filename n trigger)

/-- Model of the method validateTarget of HTMXAttributes.  All three paths
for a single-word value return no result in the source. -/
def validateTarget (r : HTMXAttributes) (filename : Str) (n : PNode) (value : Str) :
    List Result :=
  if value = [] then []
  else if isTemplatedValue value then []
  else
    let value := trimSpace value
    let specialValues :=
      [("this").toList, ("next").toList, ("previous").toList, ("body").toList]
    if ¬ containsSub ((" ").toList) value then
      let lower := lowerStr value
      if specialValues.contains lower then []
      else if startsWith (("#").toList) value || startsWith ((".").toList) value ||
          validElementNames.contains lower then []
      else []
    else
      match breakAt ' ' value with
      | none => []
      | some (kw0, _) =>
        let keyword := lowerStr kw0
        let validKeywords :=
          [("closest").toList, ("find").toList, ("next").toList, ("previous").toList]
        if ¬ validKeywords.contains keyword && ¬ specialValues.contains keyword then
          [⟨RuleHTMXAttributes,
            ("invalid hx-target keyword \x27").toList ++ kw0 ++
              ("\x27; expected \x27this\x27, \x27closest\x27, \x27find\x27, \x27next\x27, \x27previous\x27, or a CSS selector").toList,
            filename, n.line, n.col, Severity.warning⟩]
        else []

/-- Model of the method validateHTMXv4Event of HTMXAttributes. -/
def validateHTMXv4Event (r : HTMXAttributes) (filename : Str) (n : PNode)
    (eventName : Str) : List Result :=
  let remainder :=
    if startsWith (("htmx:").toList) eventName then eventName.drop 5 else eventName
  let parts : Str × Option Str :=
    match breakAt ':' remainder with
    | none => (remainder, none)
    | some (a, b) => (a, some b)
  if parts.1 = [] then
    [⟨RuleHTMXAttributes,
      ("invalid htmx event format \x27").toList ++ eventName ++ ("\x27").toList,
      filename, n.line, n.col, Severity.error⟩]
  else
    let phase := lowerStr parts.1
    if ¬ knownHTMXv4Phases.contains phase then
      if standaloneEvents.contains phase then []
      else
        [⟨RuleHTMXAttributes,
          ("unknown htmx 4 event phase \x27").toList ++ parts.1 ++
            ("\x27 in \x27").toList ++ eventName ++ ("\x27").toList,
          filename, n.line, n.col, Severity.warning⟩]
    else
      match parts.2 with
      | some p1 =>
        if p1 ≠ [] then
          let action0 := match breakAt ':' p1 with | none => p1 | some (a, _) => a
          if ¬ knownHTMXv4Actions.contains (lowerStr action0) then
            [⟨RuleHTMXAttributes,
              ("unknown htmx 4 event action \x27").toList ++ action0 ++
                ("\x27 in \x27").toList ++ eventName ++ ("\x27").toList,
              filename, n.line, n.col, Severity.warning⟩]
          else []
        else []
      | none => []

/-- Model of the method validateHTMXEvent of HTMXAttributes: the v2 branch
accepts any case-insensitive match in the event table (map iteration order is
irrelevant to the existence test). -/
def validateHTMXEvent (r : HTMXAttributes) (filename : Str) (n : PNode)
    (eventName : Str) : List Result :=
  if r.htmxVersion = ("4").toList then validateHTMXv4Event r filename n eventName
  else if knownHTMXv2Events.any (fun ve => equalFold eventName ve) then []
  else
    [⟨RuleHTMXAttributes,
      ("unknown htmx event \x27").toList ++ eventName ++ ("\x27").toList,
      filename, n.line, n.col, Severity.warning⟩]

/-- Model of the method validateHxOn of HTMXAttributes. -/
def validateHxOn (r : HTMXAttributes) (filename : Str) (n : PNode) (attrKey : Str) :
    List Result :=
  let eventName :=
    if startsWith (("hx-on:").toList) attrKey then attrKey.drop 6
    else if startsWith (("hx-on-").toList) attrKey then attrKey.drop 6
    else []
  if eventName = [] then
    [⟨RuleHTMXAttributes, ("hx-on:* requires an event name").toList,
      filename, n.line, n.col, Severity.error⟩]
  else
    let eventName :=
      if startsWith ((":").toList) eventName then ("htmx").toList ++ eventName
      else eventName
    let lowerEvent := lowerStr eventName
    if knownDOMEvents.contains lowerEvent then []
    else if startsWith (("htmx:").toList) eventName ||
        startsWith (("htmx:").toList) lowerEvent then
      validateHTMXEvent r filename n eventName
    else
      [⟨RuleHTMXAttributes,
        ("unknown event \x27").toList ++ eventName ++
          ("\x27 in hx-on:*; if this is a custom event, ignore this warning").toList,
        filename, n.line, n.col, Severity.warning⟩]

/-- Model of the method Check of HTMXAttributes: nothing when the framework
is disabled, otherwise the per-attribute validations over the document walk
(the walk callback returns true at every node). -/
def HTMXCheck (r : HTMXAttributes) (doc : Document) : List Result :=
  if ¬ r.htmxEnabled then []
  else
    (preorder doc.root).flatMap (fun n =>
      if ¬ (n.ntype = NodeType.elementNode) then []
      else n.attr.flatMap (fun attr =>
        let attrName := lowerStr attr.key
        if ¬ startsWith (("hx-").toList) attrName then []
        else if attrName = ("hx-swap").toList then validateSwap r doc.filename n attr.val
        else if attrName = ("hx-trigger").toList then
          validateTrigger r doc.filename n attr.val
        else if attrName = ("hx-target").toList then
          validateTarget r doc.filename n attr.val
        else if startsWith (("hx-on:").toList) attrName ||
            startsWith (("hx-on-").toList) attrName then
          validateHxOn r doc.filename n attr.key
        else []))

/-- C2: behaviour of the hx-swap validator with the framework enabled:
innerHTML with a settle time passes under version 2; an unknown base value is
an Error containing invalid hx-swap value; a modifier without a colon is an
Error containing missing colon; textContent under version 2 is a Warning
mentioning only available in htmx 4, and under version 4 passes. -/
theorem C2_validate_swap_cases (fn : Str) (n : PNode) :
    validateSwap ⟨true, ("2").toList⟩ fn n (("innerHTML settle:500ms").toList) = [] ∧
    (validateSwap ⟨true, ("2").toList⟩ fn n (("invalid").toList) =
      [⟨RuleHTMXAttributes, ("invalid hx-swap value \x27invalid\x27").toList,
        fn, n.line, n.col, Severity.error⟩] ∧
      containsSub (("invalid hx-swap value").toList)
        (("invalid hx-swap value \x27invalid\x27").toList) = true) ∧
    (validateSwap ⟨true, ("2").toList⟩ fn n (("innerHTML notamodifier").toList) =
      [⟨RuleHTMXAttributes,
        ("invalid hx-swap modifier \x27notamodifier\x27 (missing colon)").toList,
        fn, n.line, n.col, Severity.error⟩] ∧
      containsSub (("missing colon").toList)
        (("invalid hx-swap modifier \x27notamodifier\x27 (missing colon)").toList) = true) ∧
    (validateSwap ⟨true, ("2").toList⟩ fn n (("textContent").toList) =
      [⟨RuleHTMXAttributes,
        ("hx-swap value \x27textcontent\x27 is only available in htmx 4").toList,
        fn, n.line, n.col, Severity.warning⟩] ∧
      containsSub (("only available in htmx 4").toList)
        (("hx-swap value \x27textcontent\x27 is only available in htmx 4").toList) = true) ∧
    validateSwap ⟨true, ("4").toList⟩ fn n (("textContent").toList) = [] := by
  exact ⟨rfl, ⟨rfl, by decide⟩, ⟨rfl, by decide⟩, ⟨rfl, by decide⟩, rfl⟩

/-- C5: with the framework disabled the Check of the framework
attribute-grammar rule returns no results for every document and every
version string, before any attribute value is inspected. -/
theorem C5_disabled_framework_no_results (version : Str) (doc : Document) :
    HTMXCheck ⟨false, version⟩ doc = [] := rfl

/-- C6: the every trigger: a bare every (no following token) is an Error
whose message mentions a required time value; every 2s passes; every
followed by a token that does not match the time pattern is a distinct Error
for a malformed time value; the two messages differ. -/
theorem C6_trigger_every_cases (r : HTMXAttributes) (fn : Str) (n : PNode) :
    (∀ trigger : Str, fields trigger = [("every").toList] →
      validateSingleTrigger r fn n trigger =
        [⟨RuleHTMXAttributes,
          ("hx-trigger \x27every\x27 requires a time value (e.g., \x27every 1s\x27)").toList,
          fn, n.line, n.col, Severity.error⟩]) ∧
    (∀ trigger t rest, fields trigger = ("every").toList :: t :: rest →
      timeMatch t = false →
      validateSingleTrigger r fn n trigger =
        [⟨RuleHTMXAttributes,
          ("hx-trigger \x27every\x27 requires a valid time value (e.g., \x271s\x27, \x27500ms\x27)").toList,
          fn, n.line, n.col, Severity.error⟩]) ∧
    validateTrigger ⟨true, ("2").toList⟩ fn n (("every").toList) =
      [⟨RuleHTMXAttributes,
        ("hx-trigger \x27every\x27 requires a time value (e.g., \x27every 1s\x27)").toList,
        fn, n.line, n.col, Severity.error⟩] ∧
    validateTrigger ⟨true, ("2").toList⟩ fn n (("every 2s").toList) = [] ∧
    (("hx-trigger \x27every\x27 requires a time value (e.g., \x27every 1s\x27)").toList : Str) ≠
      ("hx-trigger \x27every\x27 requires a valid time value (e.g., \x271s\x27, \x27500ms\x27)").toList := by
  refine ⟨?_, ?_, rfl, rfl, by decide⟩
  · intro trigger hfields
    have hev : lowerStr (("every").toList) = ("every").toList := by decide
    simp_all [validateSingleTrigger]
  · intro trigger t rest hfields htime
    have hev : lowerStr (("every").toList) = ("every").toList := by decide
    simp_all [validateSingleTrigger]

/-- Witness for C6 at the concrete triggers every and every 5x. -/
theorem C6_trigger_every_witness :
    validateSingleTrigger ⟨true, ("2").toList⟩ (("t.html").toList)
      (exIdElem (("div").toList) (("d").toList)) (("every").toList) =
      [⟨RuleHTMXAttributes,
        ("hx-trigger \x27every\x27 requires a time value (e.g., \x27every 1s\x27)").toList,
        ("t.html").toList, 1, 1, Severity.error⟩] ∧
    validateSingleTrigger ⟨true, ("2").toList⟩ (("t.html").toList)
      (exIdElem (("div").toList) (("d").toList)) (("every 5x").toList) =
      [⟨RuleHTMXAttributes,
        ("hx-trigger \x27every\x27 requires a valid time value (e.g., \x271s\x27, \x27500ms\x27)").toList,
        ("t.html").toList, 1, 1, Severity.error⟩] :=
  ⟨(C6_trigger_every_cases ⟨true, ("2").toList⟩ (("t.html").toList)
      (exIdElem (("div").toList) (("d").toList))).1 (("every").toList) (by decide),
   (C6_trigger_every_cases ⟨true, ("2").toList⟩ (("t.html").toList)
      (exIdElem (("div").toList) (("d").toList))).2.1 (("every 5x").toList)
      (("5x").toList) [] (by decide) (by decide)⟩

theorem startsWith_append_self (p s : Str) : startsWith p (p ++ s) = true := by
  induction p with
  | nil => rfl
  | cons c rest ih => simp [startsWith, ih]

/-- C8: an hx-on event name that is neither empty, nor the version-4
shorthand, nor a known DOM event case-insensitively, nor in the htmx
namespace, yields exactly one Warning naming a possible custom event — never
an Error and never silence. -/
theorem C8_hx_on_custom_event_warns (r : HTMXAttributes) (fn : Str) (n : PNode) (e : Str)
    (hne : e ≠ [])
    (hsh : startsWith ((":").toList) e = false)
    (hdom : knownDOMEvents.contains (lowerStr e) = false)
    (hh1 : startsWith (("htmx:").toList) e = false)
    (hh2 : startsWith (("htmx:").toList) (lowerStr e) = false) :
    validateHxOn r fn n ((("hx-on:").toList) ++ e) =
      [⟨RuleHTMXAttributes,
        ("unknown event \x27").toList ++ e ++
          ("\x27 in hx-on:*; if this is a custom event, ignore this warning").toList,
        fn, n.line, n.col, Severity.warning⟩] := by
  have h1 : startsWith (("hx-on:").toList) ((("hx-on:").toList) ++ e) = true :=
    startsWith_append_self _ _
  have h2 : ((("hx-on:").toList) ++ e).drop 6 = e := by
    rw [show (6 : Nat) = (("hx-on:").toList).length from rfl]
    exact List.drop_left _ _
  simp_all [validateHxOn]

/-- Witness for C8 at the custom event name my-event. -/
theorem C8_hx_on_custom_event_warns_witness :
    validateHxOn ⟨true, ("2").toList⟩ (("t.html").toList)
      (exIdElem (("div").toList) (("d").toList))
      ((("hx-on:").toList) ++ ("my-event").toList) =
      [⟨RuleHTMXAttributes,
        ("unknown event \x27").toList ++ ("my-event").toList ++
          ("\x27 in hx-on:*; if this is a custom event, ignore this warning").toList,
        ("t.html").toList, 1, 1, Severity.warning⟩] :=
  C8_hx_on_custom_event_warns ⟨true, ("2").toList⟩ (("t.html").toList)
    (exIdElem (("div").toList) (("d").toList)) (("my-event").toList)
    (by decide) (by decide) (by decide) (by decide) (by decide)

/-!
Raw-byte character-reference rule (UnrecognizedCharRef.CheckRaw).
-/

/-- Match the tail of a named reference right after an ampersand: one letter,
then letters or digits, then a semicolon — the anchored body of
namedCharRefPattern; the greedy alphanumeric run cannot overlap the
semicolon, so the pattern is this exact split.  Returns the captured name. -/
def refMatchAt : Str → Option Str
  | c :: rest =>
    if isAlphaChar c then
      match rest.dropWhile isAlnumChar with
      | ';' :: _ => some (c :: rest.takeWhile isAlnumChar)
      | _ => none
    else none
  | [] => none

/-- All matches of namedCharRefPattern in one line with the position of each
ampersand.  A match contains no inner ampersand, so no match can begin
inside another one and scanning every position yields exactly the
non-overlapping leftmost matches of FindAllStringSubmatchIndex. -/
def charRefMatchesAux : Str → Nat → List (Nat × Str)
  | [], _ => []
  | c :: rest, i =>
    if c = '&' then
      match refMatchAt rest with
      | some nm => (i, nm) :: charRefMatchesAux rest (i + 1)
      | none => charRefMatchesAux rest (i + 1)
    else charRefMatchesAux rest (i + 1)

/-- Walk of isInsideTemplateExpr: the loop runs while at least two characters
remain and the index is below pos (rem counts the remaining positions before
pos), counting opening and closing double braces and skipping their second
character. -/
def templDepthAux : Str → Nat → Int → Int
  | c1 :: c2 :: rest, rem + 1, d =>
    if c1 = '{' && c2 = '{' then templDepthAux rest (rem - 1) (d + 1)
    else if c1 = '}' && c2 = '}' then templDepthAux rest (rem - 1) (d - 1)
    else templDepthAux (c2 :: rest) rem d
  | _, _, d => d

/-- Model of isInsideTemplateExpr: position pos lies within an unclosed
double-brace expression of the line. -/
def isInsideTemplateExpr (line : Str) (pos : Nat) : Bool :=
  templDepthAux line pos 0 > 0

/-- Modelled from the Go standard library: html.UnescapeString rewrites a
full named reference amp-name-semicolon exactly when the name resolves in
the HTML5 entity table; this list carries the entities this development
evaluates (the full table has over two thousand entries; foobar is not among
them). -/
def knownEntities : List Str :=
  [("amp").toList, ("lt").toList, ("gt").toList, ("quot").toList, ("apos").toList,
   ("nbsp").toList, ("copy").toList, ("reg").toList, ("trade").toList,
   ("mdash").toList, ("ndash").toList, ("hellip").toList, ("laquo").toList,
   ("raquo").toList, ("deg").toList, ("euro").toList, ("pound").toList]

/-- The validity test of CheckRaw: unescaping left the reference unchanged
exactly when the name is not a known entity. -/
def unescapeChangesRef (name : Str) : Bool := knownEntities.contains name

/-- Model of the method CheckRaw of UnrecognizedCharRef: split the raw bytes
into lines, scan each line for named references, skip references inside
template expressions, and warn on every reference that unescaping leaves
unchanged. -/
def UnrecognizedCharRefCheckRaw (filename content : Str) : List Result :=
  ((splitChar '\n' content).enum).flatMap (fun p =>
    (charRefMatchesAux p.2 0).filterMap (fun m =>
      if isInsideTemplateExpr p.2 m.1 then none
      else if unescapeChangesRef m.2 then none
      else some ⟨RuleUnrecognizedCharRef,
        ("unrecognized character reference &").toList ++ m.2 ++ (";").toList,
        filename, p.1 + 1, m.1 + 1, Severity.warning⟩))

/-- C7: the raw character-reference check flags the unknown named reference
foobar with a Warning at its position, and produces nothing for the known
references amp and copy or for numeric references, which the scan pattern —
matching only names that begin with a letter — never captures. -/
theorem C7_char_ref_cases (fn : Str) :
    UnrecognizedCharRefCheckRaw fn (("&foobar;").toList) =
      [⟨RuleUnrecognizedCharRef,
        ("unrecognized character reference &foobar;").toList,
        fn, 1, 1, Severity.warning⟩] ∧
    UnrecognizedCharRefCheckRaw fn (("&amp;").toList) = [] ∧
    UnrecognizedCharRefCheckRaw fn (("&copy;").toList) = [] ∧
    UnrecognizedCharRefCheckRaw fn (("&#8212;").toList) = [] ∧
    UnrecognizedCharRefCheckRaw fn (("&#x2014;").toList) = [] :=
  ⟨rfl, rfl, rfl, rfl, rfl⟩

/-!
Document builder positions (buildNodeTree, Parse, ParseFragment).
-/

mutual

/-- Input of buildNodeTree: the html.Node tree returned by the external
golang.org/x/net/html parser, carrying no position information. -/
inductive HNode where
  | mk (kind : NodeType) (dat : Str) (attrs : List HAttr) (kids : HForest)

/-- Ordered sibling list of html.Node children. -/
inductive HForest where
  | nil
  | cons (hd : HNode) (tl : HForest)

end

mutual

/-- Model of buildNodeTree: a node takes its parent's line and column, or
line 1 column 1 at the root; its children are built with the new node as
parent, hence with its position. -/
def buildNodeTree : HNode → Option (Nat × Nat) → PNode
  | .mk k d a kids, parent =>
    let lc : Nat × Nat :=
      match parent with
      | none => (1, 1)
      | some q => q
    .mk k d a lc.1 lc.2 (buildChildren kids lc)

/-- The child loop of buildNodeTree. -/
def buildChildren : HForest → (Nat × Nat) → PForest
  | .nil, _ => .nil
  | .cons c cs, lc => .cons (buildNodeTree c (some lc)) (buildChildren cs lc)

end

/-- Model of the tree construction of Parse: the root node is built with a
nil parent. -/
def parseTree (root : HNode) : PNode := buildNodeTree root none

/-- Model of the tree construction of ParseFragment: a synthetic document
root at line 1 column 1 whose children are built with it as parent. -/
def parseFragmentTree (ns : HForest) : PNode :=
  .mk NodeType.documentNode [] [] 1 1 (buildChildren ns (1, 1))

mutual

/-- Every node of the tree carries line 1 and column 1. -/
def allOnes : PNode → Bool
  | .mk _ _ _ l c ch => decide (l = 1) && decide (c = 1) && allOnesForest ch

/-- Every node of the forest carries line 1 and column 1. -/
def allOnesForest : PForest → Bool
  | .nil => true
  | .cons n f => allOnes n && allOnesForest f

end

mutual

theorem buildNodeTree_ones : ∀ (n : HNode) (p : Option (Nat × Nat)),
    (p = none ∨ p = some (1, 1)) → allOnes (buildNodeTree n p) = true
  | .mk k d a kids, p, hp => by
    rcases hp with rfl | rfl <;>
    · simp only [buildNodeTree, allOnes, Bool.and_eq_true, decide_eq_true_eq]
      exact ⟨⟨trivial, trivial⟩, buildChildren_ones kids⟩

theorem buildChildren_ones : ∀ (f : HForest),
    allOnesForest (buildChildren f (1, 1)) = true
  | .nil => rfl
  | .cons c cs => by
    simp only [buildChildren, allOnesForest, Bool.and_eq_true]
    exact ⟨buildNodeTree_ones c (some (1, 1)) (Or.inr rfl), buildChildren_ones cs⟩

end

/-- C10: every node of a Document produced by Parse or ParseFragment has
line 1 and column 1: buildNodeTree hands each node its parent's position,
the root is initialized to (1, 1), so the best-effort positions are the
constant synthetic (1, 1) throughout the tree. -/
theorem C10_all_positions_are_one :
    (∀ root : HNode, allOnes (parseTree root) = true) ∧
    (∀ ns : HForest, allOnes (parseFragmentTree ns) = true) := by
  constructor
  · intro root
    exact buildNodeTree_ones root none (Or.inl rfl)
  · intro ns
    simp only [parseFragmentTree, allOnes, Bool.and_eq_true, decide_eq_true_eq]
    exact ⟨⟨trivial, trivial⟩, buildChildren_ones ns⟩

end GoHtmlValidate
